import Mathlib

/-!
Shallow embedding of the download subsystem of the ClineIAI repository
(`backend/app/services/download_manager.py`, `backend/app/routers/downloads.py`,
`backend/app/models/download.py`) and proofs of the spec's testable properties.

Python integers become `Nat`/`Int`, nullable columns become `Option`,
timestamps become abstract `Nat` instants, strings become `String`.
Each definition is a direct translation of the source function it names.
-/

namespace ClineIAI

/-- `DownloadStatus` enum from `backend/app/models/download.py`. -/
inductive DownloadStatus where
  | pending
  | downloading
  | completed
  | failed
  | paused
  | cancelled
  deriving DecidableEq, Repr

/-- `DownloadPriority` enum from `backend/app/models/download.py`. -/
inductive DownloadPriority where
  | low
  | normal
  | high
  deriving DecidableEq, Repr

/-- The stored string value of a priority (the `.value` of the Python enum). -/
def DownloadPriority.value : DownloadPriority → String
  | .low => "low"
  | .normal => "normal"
  | .high => "high"

/-- The `Download` row from `backend/app/models/download.py` (`downloads` table).
`progress` is `Int` because the column is a plain SQL `Integer`. -/
structure Download where
  id : Nat
  document_id : Option Nat
  source : String
  source_id : String
  url : String
  file_path : Option String
  file_name : Option String
  status : DownloadStatus
  priority : DownloadPriority
  progress : Int
  downloaded_bytes : Nat
  total_bytes : Option Nat
  speed : Option Nat
  attempts : Nat
  last_attempt : Option Nat
  error_message : Option String
  created_at : Option Nat
  started_at : Option Nat
  completed_at : Option Nat
  deriving DecidableEq, Repr

/-- The fields of `Document` (from `backend/app/models/document.py`) that the
download manager touches when it propagates completion or failure. -/
structure Document where
  is_downloaded : Bool
  download_status : String
  download_error : Option String
  last_download_attempt : Option Nat
  download_attempts : Nat
  file_path : Option String
  file_size : Option Nat
  deriving DecidableEq, Repr

/-- `_priority_rank` from `download_manager.py`:
`{"high": 3, "normal": 2, "low": 1}.get(str(value), 0)`. -/
def priority_rank (value : String) : Nat :=
  if value = "high" then 3
  else if value = "normal" then 2
  else if value = "low" then 1
  else 0

/-- `enqueue_download` (POST handler in `routers/downloads.py`): the inserted row.
`created_at` comes from the store's `server_default=func.now()`. -/
def enqueue_download (id : Nat) (document_id : Option Nat)
    (source source_id url : String) (file_name : Option String)
    (priority : DownloadPriority) (now : Nat) : Download :=
  { id := id
    document_id := document_id
    source := source
    source_id := source_id
    url := url
    file_path := none
    file_name := file_name
    status := .pending
    priority := priority
    progress := 0
    downloaded_bytes := 0
    total_bytes := none
    speed := none
    attempts := 0
    last_attempt := none
    error_message := none
    created_at := some now
    started_at := none
    completed_at := none }

/-- `cancel_download` (POST handler in `routers/downloads.py`): unconditionally
sets `status = CANCELLED` and `error_message = None` on an existing row. -/
def cancel_download (d : Download) : Download :=
  { d with status := .cancelled, error_message := none }

/-- The field resets performed by the success branch of `retry_download`. -/
def retry_reset (d : Download) : Download :=
  { d with status := .pending
           progress := 0
           downloaded_bytes := 0
           total_bytes := none
           speed := none
           error_message := none }

/-- `retry_download` (POST handler in `routers/downloads.py`): rejects with an
HTTP 400 unless the status is `FAILED` or `CANCELLED`; otherwise resets. -/
def retry_download (d : Download) : Except String Download :=
  if d.status = .failed ∨ d.status = .cancelled then
    .ok (retry_reset d)
  else
    .error "Only failed/cancelled downloads can be retried"

/-- `DownloadManager._update_progress`: writes byte counters, speed, and the
progress value clamped by `max(0, min(progress, 99))`. -/
def update_progress (downloaded_bytes : Nat) (total_bytes : Option Nat)
    (speed : Option Nat) (progress : Int) (d : Download) : Download :=
  { d with downloaded_bytes := downloaded_bytes
           total_bytes := total_bytes
           speed := speed
           progress := max 0 (min progress 99) }

/-- The in-flight progress computation of `DownloadManager._download_one`:
`int(downloaded * 100 / total_bytes)` when the total is known, else
`min(int(downloaded / 1024 / 1024), 99)`. -/
def progress_of (downloaded : Nat) (total_bytes : Option Nat) : Int :=
  match total_bytes with
  | some total => if total ≠ 0 then (downloaded * 100 / total : Nat) else
      min ((downloaded / 1024 / 1024 : Nat) : Int) 99
  | none => min ((downloaded / 1024 / 1024 : Nat) : Int) 99

/-- Python string slicing `s[:n]` on code points. -/
def pytake (n : Nat) (s : String) : String :=
  ⟨s.data.take n⟩

/-- `DownloadManager._mark_failed`: terminal failure write on the job row. -/
def mark_failed (now : Nat) (message : String) (d : Download) : Download :=
  { d with status := .failed
           error_message := some (pytake 512 message)
           completed_at := some now
           speed := none }

/-- The catalog propagation in `DownloadManager._mark_failed`, applied when
`document_id` is set: mirrors error, attempts, and timestamp to the document. -/
def mark_failed_doc (d : Download) (doc : Document) : Document :=
  { doc with download_status := "failed"
             download_error := d.error_message
             last_download_attempt := d.last_attempt
             download_attempts := d.attempts }

/-- `DownloadManager._mark_completed`: terminal success write on the job row. -/
def mark_completed (now : Nat) (downloaded_bytes : Nat)
    (total_bytes : Option Nat) (d : Download) : Download :=
  { d with status := .completed
           completed_at := some now
           progress := 100
           downloaded_bytes := downloaded_bytes
           total_bytes := total_bytes
           speed := none
           error_message := none }

/-- `DownloadManager._mark_cancelled`: terminal cancellation write by a worker. -/
def mark_cancelled (now : Nat) (d : Download) : Download :=
  { d with status := .cancelled
           completed_at := some now
           speed := none }

/-- The characters replaced by `_safe_filename`'s regex `[\\/:*?"<>|]`. -/
def isIllegalChar (c : Char) : Bool :=
  c = '\\' || c = '/' || c = ':' || c = '*' || c = '?' || c = '"' ||
  c = '<' || c = '>' || c = '|'

/-- Python `str.strip()`: remove leading and trailing whitespace. -/
def pystrip (l : List Char) : List Char :=
  ((l.dropWhile Char.isWhitespace).reverse.dropWhile Char.isWhitespace).reverse

/-- `re.sub(r"\s+", " ", ·)`: replace each maximal whitespace run by one space. -/
def collapse_ws : List Char → List Char
  | [] => []
  | c :: rest =>
    if c.isWhitespace then
      ' ' :: collapse_ws (rest.dropWhile Char.isWhitespace)
    else c :: collapse_ws rest
termination_by l => l.length
decreasing_by
  · exact Nat.lt_succ_of_le (List.dropWhile_sublist _).length_le
  · exact Nat.lt_succ_self _

/-- `_safe_filename` from `download_manager.py`: strip, default empty input to
`"download"`, replace Windows-illegal characters by `_`, collapse whitespace. -/
def safe_filename (name : String) : String :=
  let stripped := pystrip name.data
  let base := if stripped = [] then "download".data else stripped
  ⟨collapse_ws (base.map (fun c => if isIllegalChar c then '_' else c))⟩

/-- Characters allowed after the first one in a URL scheme (`urllib.parse`). -/
def isSchemeChar (c : Char) : Bool :=
  c.isAlpha || c.isDigit || c = '+' || c = '-' || c = '.'

/-- The scheme-splitting step of `urllib.parse.urlparse`: drop `scheme:` when
the text before the first `:` is a nonempty valid scheme. -/
def split_scheme (s : List Char) : List Char :=
  let pre := s.takeWhile (fun c => c ≠ ':')
  if pre.length < s.length && !pre.isEmpty &&
      (pre.headD 'a').isAlpha && pre.all isSchemeChar then
    s.drop (pre.length + 1)
  else s

/-- The netloc-splitting step of `urllib.parse.urlparse`: after `//`, the
authority extends to the next `/`, `?` or `#`. -/
def drop_netloc : List Char → List Char
  | '/' :: '/' :: rest => rest.dropWhile (fun c => c ≠ '/' && c ≠ '?' && c ≠ '#')
  | s => s

/-- `urlparse(url).path`: fragment and query removed, scheme and netloc split. -/
def urlparse_path (url : String) : String :=
  let s := url.data.takeWhile (fun c => c ≠ '#')
  let s := split_scheme s
  let s := drop_netloc s
  ⟨s.takeWhile (fun c => c ≠ '?')⟩

/-- POSIX `os.path.basename`: everything after the last `/`. -/
def basename (p : String) : String :=
  ⟨(p.data.reverse.takeWhile (fun c => c ≠ '/')).reverse⟩

/-- `_default_filename_from_url` from `download_manager.py`. -/
def default_filename_from_url (url : String) : String :=
  let base := basename (urlparse_path url)
  if base = "" then "download.bin" else base

/-- The filename chosen by `_build_target_path` before sanitization:
`d.file_name or _default_filename_from_url(d.url)` (Python `or`, so an empty
requested name also falls back to the URL-derived default). -/
def requested_filename (d : Download) : String :=
  match d.file_name with
  | some f => if f = "" then default_filename_from_url d.url else f
  | none => default_filename_from_url d.url

/-- A `Path` value `library_dir / source_dir / base_name` as produced by
`_build_target_path`; the last two components never contain `/`, so path
equality is componentwise equality. -/
structure TargetPath where
  root : String
  source_dir : String
  base_name : String
  deriving DecidableEq, Repr

/-- `DownloadManager._build_target_path`:
`library_dir / _safe_filename(d.source) / f"{d.id}-{filename}"`. -/
def build_target_path (root : String) (d : Download) : TargetPath :=
  { root := root
    source_dir := safe_filename d.source
    base_name := Nat.repr d.id ++ "-" ++ safe_filename (requested_filename d) }

/-- `str(target_path)` for a built target path. -/
def TargetPath.render (p : TargetPath) : String :=
  p.root ++ "/" ++ p.source_dir ++ "/" ++ p.base_name

/-- The claiming block of `DownloadManager._download_one` once the pending
check has passed: mark `DOWNLOADING`, reset counters, bump `attempts`, and
persist the computed target path. -/
def claim_row (now : Nat) (root : String) (d : Download) : Download :=
  { d with status := .downloading
           started_at := some now
           progress := 0
           downloaded_bytes := 0
           error_message := none
           last_attempt := some now
           attempts := d.attempts + 1
           file_path := some (build_target_path root d).render }

/-- The guarded entry of `DownloadManager._download_one` acting on the store's
row for the job id: missing row or non-`PENDING` status aborts with no write. -/
def download_one_claim (now : Nat) (root : String) :
    Option Download → Option Download
  | none => none
  | some d => if d.status ≠ .pending then some d else some (claim_row now root d)

/-- The sort key of `_spawn_pending`:
`(_priority_rank(d.priority.value), d.created_at or datetime.min)`. -/
def spawn_key (d : Download) : Nat × Nat :=
  (priority_rank d.priority.value, d.created_at.getD 0)

/-- Lexicographic `a ≥ b` on Python tuple keys. -/
def key_ge (a b : Nat × Nat) : Bool :=
  b.1 < a.1 || (b.1 = a.1 && b.2 ≤ a.2)

/-- Stable descending insertion: `a` (earlier in the original list) goes in
front of the first element whose key it is ≥, hence before equal keys. -/
def insert_desc (a : Download) : List Download → List Download
  | [] => [a]
  | b :: rest =>
    if key_ge (spawn_key a) (spawn_key b) then a :: b :: rest
    else b :: insert_desc a rest

/-- `downloads.sort(key=..., reverse=True)`: the stable sort of CPython with a
reversed comparison, i.e. descending in the lexicographic tuple order with
original order preserved on equal keys. -/
def sort_desc : List Download → List Download
  | [] => []
  | a :: rest => insert_desc a (sort_desc rest)

/-- `DownloadManager._spawn_pending`: pending rows not already active, sorted
by `(priority rank, created_at)` under `reverse=True`, first `capacity` taken. -/
def spawn_pending (active : Finset Nat) (capacity : Nat)
    (pending : List Download) : List Download :=
  (sort_desc (pending.filter (fun d => d.id ∉ active))).take capacity

/-- One iteration of `DownloadManager._run_loop`: reap finished workers, compute
`capacity = max(max_parallel - len(active), 0)` (truncated `Nat` subtraction),
and when positive add the spawned jobs' ids to the active set. -/
def run_loop_iter (max_parallel : Nat) (done : Finset Nat)
    (pending : List Download) (active : Finset Nat) : Finset Nat :=
  let act := active \ done
  let capacity := max_parallel - act.card
  if capacity > 0 then
    act ∪ ((spawn_pending act capacity pending).map (fun d => d.id)).toFinset
  else act

/-- Lifecycle phase of the (at most one) worker task registered for a job id
in `DownloadManager._active`: not yet spawned / executing `_download_one` /
finished but not yet reaped by `_run_loop`. -/
inductive WPhase where
  | idle
  | running
  | done
  deriving DecidableEq, Repr

/-- Observable state of one job: its store row plus its worker's phase.
`_spawn_pending` filters out ids already in `_active`, so a job never has two
live workers; one phase suffices. -/
structure SysState where
  row : Download
  worker : WPhase
  deriving DecidableEq, Repr

/-- The operations that can touch one job's row, as implemented:
router `cancel`/`retry` at any time, and the worker's own writes from
`_download_one` in their control-flow order. `progressWrite` takes arbitrary
arguments since the clamp in `_update_progress` is what the code relies on. -/
inductive Step : SysState → SysState → Prop where
  | cancel (s : SysState) :
      Step s ⟨cancel_download s.row, s.worker⟩
  | retry (s : SysState)
      (h : s.row.status = .failed ∨ s.row.status = .cancelled) :
      Step s ⟨retry_reset s.row, s.worker⟩
  | claim (s : SysState) (now : Nat) (root : String)
      (hw : s.worker = .idle) (hp : s.row.status = .pending) :
      Step s ⟨claim_row now root s.row, .running⟩
  | claimAbort (s : SysState)
      (hw : s.worker = .idle) (hp : s.row.status ≠ .pending) :
      Step s ⟨s.row, .done⟩
  | progressWrite (s : SysState) (db : Nat) (tb sp : Option Nat) (p : Int)
      (hw : s.worker = .running) :
      Step s ⟨update_progress db tb sp p s.row, .running⟩
  | complete (s : SysState) (now db : Nat) (tb : Option Nat)
      (hw : s.worker = .running) :
      Step s ⟨mark_completed now db tb s.row, .done⟩
  | fail (s : SysState) (now : Nat) (msg : String)
      (hw : s.worker = .running) :
      Step s ⟨mark_failed now msg s.row, .done⟩
  | cancelExit (s : SysState) (now : Nat)
      (hw : s.worker = .running) :
      Step s ⟨mark_cancelled now s.row, .done⟩
  | reap (s : SysState) (hw : s.worker = .done) :
      Step s ⟨s.row, .idle⟩

/-- States reachable from `init` under any interleaving of the operations. -/
def Reachable (init s : SysState) : Prop :=
  Relation.ReflTransGen Step init s

/-- The freshly enqueued job with an idle worker. -/
def init_state (id : Nat) (document_id : Option Nat)
    (source source_id url : String) (file_name : Option String)
    (priority : DownloadPriority) (now : Nat) : SysState :=
  ⟨enqueue_download id document_id source source_id url file_name priority now,
   .idle⟩

/-- Inductive invariant for the progress/status relationship, with the
auxiliary facts about the worker phase needed to make it inductive. -/
def Inv (s : SysState) : Prop :=
  0 ≤ s.row.progress ∧
  s.row.progress ≤ 100 ∧
  (s.row.status = .completed → s.row.progress = 100) ∧
  (s.row.progress = 100 →
    s.row.status = .completed ∨ s.row.status = .cancelled) ∧
  (s.worker = .running → s.row.progress ≤ 99) ∧
  (s.worker = .running → s.row.status ≠ .completed) ∧
  (s.worker ≠ .running → s.row.status ≠ .downloading)

theorem inv_init (id : Nat) (document_id : Option Nat)
    (source source_id url : String) (file_name : Option String)
    (priority : DownloadPriority) (now : Nat) :
    Inv (init_state id document_id source source_id url file_name priority
      now) := by
  simp [Inv, init_state, enqueue_download]

theorem inv_step {s t : SysState} (h : Inv s) (st : Step s t) : Inv t := by
  obtain ⟨h1, h2, h3, h4, h5, h6, h7⟩ := h
  cases st with
  | cancel =>
      refine ⟨h1, h2, ?_, ?_, fun hw => h5 hw, ?_, ?_⟩ <;>
        simp [cancel_download]
  | retry hst =>
      refine ⟨?_, ?_, ?_, ?_, ?_, ?_, ?_⟩ <;> simp [retry_reset]
  | claim now root hw hp =>
      refine ⟨?_, ?_, ?_, ?_, ?_, ?_, ?_⟩ <;> simp [claim_row]
  | claimAbort hw hp =>
      refine ⟨h1, h2, h3, h4, ?_, ?_, ?_⟩ <;> simp
      exact h7 (by simp [hw])
  | progressWrite db tb sp p hw =>
      have hle : max 0 (min p 99) ≤ 99 :=
        max_le (by norm_num) (min_le_right _ _)
      refine ⟨le_max_left _ _, le_trans hle (by norm_num), ?_, ?_, ?_, ?_, ?_⟩
      · intro hc
        exact absurd hc (h6 hw)
      · intro hp100
        simp [update_progress] at hp100
        omega
      · intro _
        simp only [update_progress]
        exact hle
      · intro _
        simpa [update_progress] using h6 hw
      · intro hnr
        simp at hnr
  | complete now db tb hw =>
      refine ⟨?_, ?_, ?_, ?_, ?_, ?_, ?_⟩ <;> simp [mark_completed]
  | fail now msg hw =>
      refine ⟨h1, h2, ?_, ?_, ?_, ?_, ?_⟩ <;> simp [mark_failed]
      intro hp100
      have := h5 hw
      omega
  | cancelExit now hw =>
      refine ⟨h1, h2, ?_, ?_, ?_, ?_, ?_⟩ <;> simp [mark_cancelled]
  | reap hw =>
      refine ⟨h1, h2, h3, h4, ?_, ?_, ?_⟩ <;> simp
      exact h7 (by simp [hw])

theorem inv_reachable {init s : SysState} (hinit : Inv init)
    (h : Reachable init s) : Inv s := by
  induction h with
  | refl => exact hinit
  | tail _ hst ih => exact inv_step ih hst

theorem mem_collapse_ws : ∀ (l : List Char) (c : Char),
    c ∈ collapse_ws l → c = ' ' ∨ c ∈ l := by
  intro l
  induction l using collapse_ws.induct with
  | case1 =>
      intro c h
      simp [collapse_ws] at h
  | case2 a rest hws ih =>
      intro c h
      rw [collapse_ws, if_pos hws] at h
      rcases List.mem_cons.mp h with h1 | h1
      · exact Or.inl h1
      · rcases ih c h1 with h2 | h2
        · exact Or.inl h2
        · exact Or.inr
            (List.mem_cons_of_mem _ ((List.dropWhile_sublist _).mem h2))
  | case3 a rest hws ih =>
      intro c h
      rw [collapse_ws, if_neg hws] at h
      rcases List.mem_cons.mp h with h1 | h1
      · exact Or.inr (h1 ▸ List.mem_cons_self _ _)
      · rcases ih c h1 with h2 | h2
        · exact Or.inl h2
        · exact Or.inr (List.mem_cons_of_mem _ h2)

theorem head_dropWhile_not_ws (l : List Char) (a : Char) (r : List Char)
    (h : l.dropWhile Char.isWhitespace = a :: r) :
    a.isWhitespace = false := by
  induction l with
  | nil => simp [List.dropWhile] at h
  | cons x t ih =>
      rw [List.dropWhile_cons] at h
      by_cases hx : x.isWhitespace
      · rw [if_pos hx] at h
        exact ih h
      · rw [if_neg hx] at h
        cases h
        exact Bool.eq_false_iff.mpr hx

theorem head_collapse_dropWhile (l : List Char) (c : Char)
    (h : (collapse_ws (l.dropWhile Char.isWhitespace)).head? = some c) :
    c.isWhitespace = false := by
  cases hd : l.dropWhile Char.isWhitespace with
  | nil => rw [hd] at h; simp [collapse_ws] at h
  | cons a r =>
      have ha : a.isWhitespace = false := head_dropWhile_not_ws l a r hd
      rw [hd, collapse_ws, if_neg (by simp [ha])] at h
      have hac : a = c := by simpa using h
      rw [← hac]
      exact ha

theorem chain'_collapse_ws (l : List Char) :
    List.Chain' (fun a b => (a.isWhitespace && b.isWhitespace) = false)
      (collapse_ws l) := by
  induction l using collapse_ws.induct with
  | case1 => simp [collapse_ws]
  | case2 a rest hws ih =>
      rw [collapse_ws, if_pos hws]
      refine List.chain'_cons'.mpr ⟨?_, ih⟩
      intro y hy
      have hnw : y.isWhitespace = false :=
        head_collapse_dropWhile rest y hy
      simp [hnw]
  | case3 a rest hws ih =>
      rw [collapse_ws, if_neg hws]
      refine List.chain'_cons'.mpr ⟨?_, ih⟩
      intro y hy
      simp [Bool.eq_false_iff.mpr hws]

theorem collapse_ws_ne_nil (l : List Char) (h : l ≠ []) :
    collapse_ws l ≠ [] := by
  cases l with
  | nil => exact absurd rfl h
  | cons a r =>
      rw [collapse_ws]
      by_cases hws : a.isWhitespace <;> simp [hws]

theorem length_insert_desc (a : Download) (l : List Download) :
    (insert_desc a l).length = l.length + 1 := by
  induction l with
  | nil => rfl
  | cons b r ih =>
      rw [insert_desc]
      by_cases h : key_ge (spawn_key a) (spawn_key b) <;> simp [h, ih]

theorem length_sort_desc (l : List Download) :
    (sort_desc l).length = l.length := by
  induction l with
  | nil => rfl
  | cons a r ih =>
      rw [sort_desc, length_insert_desc, ih]
      rfl

theorem spawn_pending_length_le (active : Finset Nat) (capacity : Nat)
    (pending : List Download) :
    (spawn_pending active capacity pending).length ≤ capacity := by
  rw [spawn_pending, List.length_take]
  exact inf_le_left

/-- Most-significant-digit-first decimal rendering of a natural number, the
reference form of `Nat.toDigitsCore` with enough fuel. -/
def rep10 (n : Nat) : List Char :=
  if _h : n < 10 then [Nat.digitChar n]
  else rep10 (n / 10) ++ [Nat.digitChar (n % 10)]
termination_by n
decreasing_by
  exact Nat.div_lt_self (by omega) (by norm_num)

theorem rep10_eq_small {n : Nat} (h : n < 10) :
    rep10 n = [Nat.digitChar n] := by
  rw [rep10]
  exact dif_pos h

theorem rep10_eq_large {n : Nat} (h : ¬ n < 10) :
    rep10 n = rep10 (n / 10) ++ [Nat.digitChar (n % 10)] := by
  conv_lhs => rw [rep10]
  exact dif_neg h

theorem toDigitsCore_eq_rep10 (fuel : Nat) : ∀ (n : Nat) (ds : List Char),
    n < fuel → Nat.toDigitsCore 10 fuel n ds = rep10 n ++ ds := by
  induction fuel with
  | zero => intro n ds h; omega
  | succ f ih =>
      intro n ds h
      rw [Nat.toDigitsCore]
      by_cases h10 : n / 10 = 0
      · have hn : n < 10 := by omega
        rw [if_pos h10, rep10_eq_small hn, Nat.mod_eq_of_lt hn]
        rfl
      · have hpos : 0 < n := by
          rcases Nat.eq_zero_or_pos n with h0 | h0
          · exact absurd (by simp [h0]) h10
          · exact h0
        have hlt : n / 10 < f :=
          lt_of_lt_of_le (Nat.div_lt_self hpos (by norm_num))
            (Nat.lt_succ_iff.mp h)
        have hn : ¬ n < 10 := fun hlt10 => h10 (Nat.div_eq_of_lt hlt10)
        rw [if_neg h10, ih (n / 10) _ hlt, rep10_eq_large hn,
          List.append_assoc]
        rfl

theorem repr_data_eq_rep10 (n : Nat) : (Nat.repr n).data = rep10 n := by
  show (Nat.toDigits 10 n).asString.data = rep10 n
  rw [Nat.toDigits, toDigitsCore_eq_rep10 (n + 1) n [] (Nat.lt_succ_self n)]
  simp [List.asString]

theorem digitChar_isDigit : ∀ m, m < 10 → (Nat.digitChar m).isDigit = true :=
  by decide

theorem rep10_digits (n : Nat) : ∀ c ∈ rep10 n, c.isDigit = true := by
  induction n using Nat.strong_induction_on with
  | _ n ih =>
      intro c hc
      by_cases h : n < 10
      · rw [rep10_eq_small h] at hc
        rcases List.mem_singleton.mp hc with rfl
        exact digitChar_isDigit n h
      · rw [rep10_eq_large h] at hc
        rcases List.mem_append.mp hc with h1 | h1
        · exact ih (n / 10) (Nat.div_lt_self (by omega) (by norm_num)) c h1
        · rcases List.mem_singleton.mp h1 with rfl
          exact digitChar_isDigit _ (Nat.mod_lt n (by norm_num))

theorem digitChar_inj_lt : ∀ a, a < 10 → ∀ b, b < 10 →
    Nat.digitChar a = Nat.digitChar b → a = b := by decide

theorem rep10_ne_nil (n : Nat) : rep10 n ≠ [] := by
  by_cases h : n < 10
  · rw [rep10_eq_small h]
    simp
  · rw [rep10_eq_large h]
    simp

theorem rep10_inj (m : Nat) : ∀ n, rep10 m = rep10 n → m = n := by
  induction m using Nat.strong_induction_on with
  | _ m ih =>
      intro n heq
      by_cases hm : m < 10 <;> by_cases hn : n < 10
      · rw [rep10_eq_small hm, rep10_eq_small hn] at heq
        exact digitChar_inj_lt m hm n hn (List.singleton_injective heq)
      · rw [rep10_eq_small hm, rep10_eq_large hn] at heq
        have hlen := congrArg List.length heq
        rw [List.length_append] at hlen
        simp only [List.length_singleton] at hlen
        have := List.length_pos.mpr (rep10_ne_nil (n / 10))
        omega
      · rw [rep10_eq_large hm, rep10_eq_small hn] at heq
        have hlen := congrArg List.length heq
        rw [List.length_append] at hlen
        simp only [List.length_singleton] at hlen
        have := List.length_pos.mpr (rep10_ne_nil (m / 10))
        omega
      · rw [rep10_eq_large hm, rep10_eq_large hn] at heq
        obtain ⟨hpre, hlast⟩ := List.append_inj' heq rfl
        have hdiv : m / 10 = n / 10 :=
          ih (m / 10) (Nat.div_lt_self (by omega) (by norm_num)) (n / 10) hpre
        have hmod : m % 10 = n % 10 :=
          digitChar_inj_lt _ (Nat.mod_lt m (by norm_num)) _
            (Nat.mod_lt n (by norm_num)) (List.singleton_injective hlast)
        omega

theorem nat_repr_inj {m n : Nat} (h : Nat.repr m = Nat.repr n) : m = n :=
  rep10_inj m n (by rw [← repr_data_eq_rep10, ← repr_data_eq_rep10, h])

theorem append_dash_inj (a₁ : List Char) : ∀ (a₂ b₁ b₂ : List Char),
    (∀ c ∈ a₁, c.isDigit = true) → (∀ c ∈ a₂, c.isDigit = true) →
    a₁ ++ '-' :: b₁ = a₂ ++ '-' :: b₂ → a₁ = a₂ := by
  induction a₁ with
  | nil =>
      intro a₂ b₁ b₂ _ h2 heq
      cases a₂ with
      | nil => rfl
      | cons y u =>
          have hy := h2 y (List.mem_cons_self _ _)
          rw [List.nil_append, List.cons_append] at heq
          injection heq with h1 _
          rw [← h1] at hy
          exact absurd hy (by decide)
  | cons x t ih =>
      intro a₂ b₁ b₂ h1 h2 heq
      cases a₂ with
      | nil =>
          have hx := h1 x (List.mem_cons_self _ _)
          rw [List.nil_append, List.cons_append] at heq
          injection heq with ha _
          rw [ha] at hx
          exact absurd hx (by decide)
      | cons y u =>
          rw [List.cons_append, List.cons_append] at heq
          injection heq with hxy hrest
          rw [hxy, ih u b₁ b₂ (fun c hc => h1 c (List.mem_cons_of_mem _ hc))
            (fun c hc => h2 c (List.mem_cons_of_mem _ hc)) hrest]

theorem safe_filename_no_illegal (s : String) :
    (safe_filename s).data.all (fun c => !isIllegalChar c) = true := by
  rw [List.all_eq_true]
  intro c hc
  have hc' : c ∈ collapse_ws ((if pystrip s.data = [] then "download".data
      else pystrip s.data).map
        (fun c => if isIllegalChar c then '_' else c)) := hc
  rcases mem_collapse_ws _ c hc' with h | h
  · subst h; rfl
  · rcases List.mem_map.mp h with ⟨o, _, rfl⟩
    by_cases ho : isIllegalChar o
    · simp [ho]
      decide
    · simp [ho]

theorem safe_filename_ne_empty (s : String) : safe_filename s ≠ "" := by
  intro h
  have hdata : collapse_ws ((if pystrip s.data = [] then "download".data
      else pystrip s.data).map
        (fun c => if isIllegalChar c then '_' else c)) = [] :=
    congrArg String.data h
  refine collapse_ws_ne_nil _ ?_ hdata
  by_cases hp : pystrip s.data = [] <;> simp [hp]

/-- Claim C10: `_update_progress` clamps the persisted progress into `[0, 99]`
before writing, for every input — so even when `total_bytes` is known and
`downloaded_bytes` exceeds it mid-transfer, an in-flight write never stores a
value of 100 or above, nor a negative value. -/
theorem update_progress_clamped (db : Nat) (tb sp : Option Nat) (p : Int)
    (d : Download) :
    0 ≤ (update_progress db tb sp p d).progress ∧
    (update_progress db tb sp p d).progress ≤ 99 := by
  constructor
  · exact le_max_left _ _
  · exact max_le (by norm_num) (min_le_right _ _)

/-- Claim C4: `retry` succeeds exactly when the current status is `failed` or
`cancelled` (in particular a `completed` job is rejected with an error and left
unchanged), and on success it resets `progress`, `downloaded_bytes`,
`total_bytes`, `speed`, `error_message` and sets `status = pending`. -/
theorem retry_semantics (d : Download) :
    ((retry_download d).isOk = true ↔
      (d.status = .failed ∨ d.status = .cancelled)) ∧
    (d.status = .completed →
      retry_download d =
        .error "Only failed/cancelled downloads can be retried") ∧
    (∀ d', retry_download d = .ok d' →
      d'.progress = 0 ∧ d'.downloaded_bytes = 0 ∧ d'.total_bytes = none ∧
      d'.speed = none ∧ d'.error_message = none ∧ d'.status = .pending) := by
  refine ⟨?_, ?_, ?_⟩
  · by_cases h : d.status = .failed ∨ d.status = .cancelled <;>
      simp [retry_download, h, Except.isOk, Except.toBool]
  · intro h
    rw [retry_download, if_neg (by simp [h])]
  · intro d' h
    by_cases hs : d.status = .failed ∨ d.status = .cancelled
    · rw [retry_download, if_pos hs] at h
      injection h with h
      subst h
      exact ⟨rfl, rfl, rfl, rfl, rfl, rfl⟩
    · rw [retry_download, if_neg hs] at h
      exact absurd h (by simp)

/-- Concrete instantiation of `retry_semantics`: retrying a failed job resets
it to a pending, zeroed row, and retrying a completed job is rejected. -/
theorem retry_semantics_witness :
    (retry_download (mark_failed 7 "boom" (claim_row 3 "/lib"
        (enqueue_download 1 none "manual" "manual" "http://h/a.bin" none
          .normal 0)))).isOk = true ∧
    retry_download (mark_completed 7 42 (some 42) (claim_row 3 "/lib"
        (enqueue_download 1 none "manual" "manual" "http://h/a.bin" none
          .normal 0))) =
      .error "Only failed/cancelled downloads can be retried" := by
  constructor
  · exact (retry_semantics _).1.mpr (Or.inl rfl)
  · exact (retry_semantics _).2.1 rfl

/-- Claim C3: the worker proceeds only if the job's status is still `pending`
at claim time; a missing or non-pending job aborts with no change to the
store; otherwise the claim sets `status = downloading`, resets `progress` and
`downloaded_bytes` to 0, clears `error_message`, sets `started_at` and
`last_attempt`, and increments `attempts` by exactly 1. -/
theorem claim_guard_and_effects (now : Nat) (root : String) (d : Download) :
    download_one_claim now root none = none ∧
    (d.status ≠ .pending → download_one_claim now root (some d) = some d) ∧
    (d.status = .pending →
      download_one_claim now root (some d) = some (claim_row now root d) ∧
      (claim_row now root d).status = .downloading ∧
      (claim_row now root d).progress = 0 ∧
      (claim_row now root d).downloaded_bytes = 0 ∧
      (claim_row now root d).error_message = none ∧
      (claim_row now root d).started_at = some now ∧
      (claim_row now root d).last_attempt = some now ∧
      (claim_row now root d).attempts = d.attempts + 1) := by
  refine ⟨rfl, ?_, ?_⟩
  · intro h
    simp [download_one_claim, h]
  · intro h
    exact ⟨by simp [download_one_claim, h], rfl, rfl, rfl, rfl, rfl, rfl, rfl⟩

/-- Concrete instantiation of `claim_guard_and_effects`: claiming a fresh
pending job yields `attempts = 1`, and claiming an already-completed job
leaves the store row untouched. -/
theorem claim_guard_and_effects_witness :
    download_one_claim 3 "/lib" (some (enqueue_download 1 none "manual"
        "manual" "http://h/a.bin" none .normal 0)) =
      some (claim_row 3 "/lib" (enqueue_download 1 none "manual" "manual"
        "http://h/a.bin" none .normal 0)) ∧
    (claim_row 3 "/lib" (enqueue_download 1 none "manual" "manual"
        "http://h/a.bin" none .normal 0)).attempts = 1 ∧
    download_one_claim 3 "/lib" (some (mark_completed 7 42 (some 42)
        (claim_row 3 "/lib" (enqueue_download 1 none "manual" "manual"
          "http://h/a.bin" none .normal 0)))) =
      some (mark_completed 7 42 (some 42) (claim_row 3 "/lib"
        (enqueue_download 1 none "manual" "manual" "http://h/a.bin" none
          .normal 0))) := by
  refine ⟨((claim_guard_and_effects 3 "/lib" _).2.2 rfl).1, ?_, ?_⟩
  · rw [((claim_guard_and_effects 3 "/lib" _).2.2 rfl).2.2.2.2.2.2.2]
    rfl
  · exact (claim_guard_and_effects 3 "/lib" _).2.1 (by decide)

/-- The failure branch of `_download_one`: `_mark_failed` writes the row and,
when `document_id` is set, mirrors the failure to the document; the handler
then deletes the temporary file (the `Bool` tracks its existence). -/
def fail_outcome (now : Nat) (msg : String) (d : Download) (doc : Document)
    (_tmp_exists : Bool) : Download × Document × Bool :=
  let row := mark_failed now msg d
  (row,
   (match row.document_id with
    | some _ => mark_failed_doc row doc
    | none => doc),
   false)

/-- Claim C6: on a transfer failure the worker sets `status = failed`, stores
the error message truncated to the 512-character column limit (non-empty when
the transport's message is), clears `speed`, sets `completed_at`, deletes the
temporary file, and when `document_id` is set propagates message, attempt
count and timestamp to the linked document; a fresh job failing on its first
dispatch ends with `attempts = 1`. -/
theorem mark_failed_semantics (now t₀ t₁ : Nat) (msg : String) (d : Download)
    (doc : Document) (tmp : Bool) (i id : Nat) (root src sid url : String)
    (fn : Option String) (pr : DownloadPriority) :
    (mark_failed now msg d).status = .failed ∧
    (mark_failed now msg d).error_message = some (pytake 512 msg) ∧
    (pytake 512 msg).length ≤ 512 ∧
    (msg ≠ "" → pytake 512 msg ≠ "") ∧
    (mark_failed now msg d).speed = none ∧
    (mark_failed now msg d).completed_at = some now ∧
    (fail_outcome now msg d doc tmp).2.2 = false ∧
    (d.document_id = some i →
      (fail_outcome now msg d doc tmp).2.1.download_status = "failed" ∧
      (fail_outcome now msg d doc tmp).2.1.download_error =
        (mark_failed now msg d).error_message ∧
      (fail_outcome now msg d doc tmp).2.1.download_attempts = d.attempts ∧
      (fail_outcome now msg d doc tmp).2.1.last_download_attempt =
        d.last_attempt) ∧
    (mark_failed now msg (claim_row t₁ root
      (enqueue_download id none src sid url fn pr t₀))).attempts = 1 := by
  refine ⟨rfl, rfl, ?_, ?_, rfl, rfl, rfl, ?_, rfl⟩
  · show (msg.data.take 512).length ≤ 512
    rw [List.length_take]
    exact inf_le_left
  · intro hne hempty
    apply hne
    have : msg.data.take 512 = [] := congrArg String.data hempty
    rcases List.take_eq_nil_iff.mp this with h | h
    · omega
    · exact String.ext h
  · intro h
    refine ⟨?_, ?_, ?_, ?_⟩ <;>
      simp [fail_outcome, mark_failed_doc, mark_failed, h]

/-- Concrete instantiation of `mark_failed_semantics`: an unreachable-URL
failure on a fresh job stores the non-empty message, links the document, and
leaves `attempts = 1`. -/
theorem mark_failed_semantics_witness :
    pytake 512 "connection refused" ≠ "" ∧
    (fail_outcome 9 "connection refused"
      (claim_row 5 "/lib" (enqueue_download 4 (some 7) "manual" "manual"
        "http://unreachable/x.bin" none .normal 1))
      ⟨false, "pending", none, none, 0, none, none⟩
      true).2.1.download_status = "failed" ∧
    (mark_failed 9 "connection refused" (claim_row 5 "/lib"
      (enqueue_download 4 (some 7) "manual" "manual"
        "http://unreachable/x.bin" none .normal 1))).attempts = 1 := by
  have h := mark_failed_semantics 9 1 5 "connection refused"
    (claim_row 5 "/lib" (enqueue_download 4 (some 7) "manual" "manual"
      "http://unreachable/x.bin" none .normal 1))
    ⟨false, "pending", none, none, 0, none, none⟩ true 7 4 "/lib" "manual"
    "manual" "http://unreachable/x.bin" none .normal
  exact ⟨h.2.2.2.1 (by decide), (h.2.2.2.2.2.2.2.1 rfl).1, h.2.2.2.2.2.2.2.2⟩

/-- Claim C5: the target path builder is a pure function of the job computing
`root / sanitize(source) / "{id}-{sanitize(filename)}"`, where the filename is
the requested `file_name` when set and non-empty, else the last path segment
of the URL, else the generic placeholder; sanitization leaves no
filesystem-illegal character, collapses whitespace runs, and never yields an
empty component. -/
theorem build_target_path_spec (root : String) (d : Download) (s : String) :
    (build_target_path root d).root = root ∧
    (build_target_path root d).source_dir = safe_filename d.source ∧
    (build_target_path root d).base_name =
      Nat.repr d.id ++ "-" ++ safe_filename (requested_filename d) ∧
    (d.file_name = none →
      requested_filename d = default_filename_from_url d.url) ∧
    (∀ f, d.file_name = some f → f ≠ "" → requested_filename d = f) ∧
    (basename (urlparse_path d.url) = "" →
      default_filename_from_url d.url = "download.bin") ∧
    (basename (urlparse_path d.url) ≠ "" →
      default_filename_from_url d.url = basename (urlparse_path d.url)) ∧
    (safe_filename s).data.all (fun c => !isIllegalChar c) = true ∧
    List.Chain' (fun a b => (a.isWhitespace && b.isWhitespace) = false)
      (safe_filename s).data ∧
    safe_filename s ≠ "" := by
  refine ⟨rfl, rfl, rfl, ?_, ?_, ?_, ?_, safe_filename_no_illegal s,
    chain'_collapse_ws _, safe_filename_ne_empty s⟩
  · intro h
    rw [requested_filename, h]
  · intro f hf hne
    rw [requested_filename, hf]
    simp [hne]
  · intro h
    rw [default_filename_from_url, if_pos h]
  · intro h
    rw [default_filename_from_url, if_neg h]

/-- Concrete instantiation of `build_target_path_spec`: a job with no
requested name takes the URL's last segment, and one with an empty URL path
takes the placeholder. -/
theorem build_target_path_spec_witness :
    requested_filename (enqueue_download 1 none "awmf" "a1"
      "http://host/docs/leitlinie.pdf" none .normal 0) = "leitlinie.pdf" ∧
    requested_filename (enqueue_download 2 none "awmf" "a2" "http://host"
      none .normal 0) = "download.bin" ∧
    requested_filename (enqueue_download 3 none "awmf" "a3" "http://host/x.pdf"
      (some "My Name.pdf") .normal 0) = "My Name.pdf" := by
  refine ⟨?_, ?_, ?_⟩
  · rw [(build_target_path_spec "/lib" _ "").2.2.2.1 rfl,
      (build_target_path_spec "/lib" _ "").2.2.2.2.2.2.1 (by decide)]
    decide
  · rw [(build_target_path_spec "/lib" _ "").2.2.2.1 rfl,
      (build_target_path_spec "/lib" _ "").2.2.2.2.2.1 (by decide)]
  · exact (build_target_path_spec "/lib" _ "").2.2.2.2.1 "My Name.pdf" rfl
      (by decide)

/-- Claim C9: for any two jobs with distinct ids the target path builder
yields distinct paths, even with identical `source` and requested
`file_name` — the decimal id prefix of the final component makes the path
injective in the id. -/
theorem target_path_injective_in_id (root : String) (d₁ d₂ : Download)
    (h : d₁.id ≠ d₂.id) :
    build_target_path root d₁ ≠ build_target_path root d₂ := by
  intro heq
  apply h
  have hbase : (build_target_path root d₁).base_name =
      (build_target_path root d₂).base_name := by rw [heq]
  have hdata : (Nat.repr d₁.id).data ++
      '-' :: (safe_filename (requested_filename d₁)).data =
      (Nat.repr d₂.id).data ++
      '-' :: (safe_filename (requested_filename d₂)).data := by
    have hd := congrArg String.data hbase
    simpa [build_target_path, String.data_append] using hd
  have hrepr : (Nat.repr d₁.id).data = (Nat.repr d₂.id).data :=
    append_dash_inj _ _ _ _
      (by rw [repr_data_eq_rep10]; exact rep10_digits _)
      (by rw [repr_data_eq_rep10]; exact rep10_digits _) hdata
  exact nat_repr_inj (String.ext hrepr)

/-- Concrete instantiation of `target_path_injective_in_id`: two jobs with the
same source and requested filename but ids 1 and 12 get distinct paths. -/
theorem target_path_injective_in_id_witness :
    build_target_path "/lib" (enqueue_download 1 none "manual" "m"
      "http://h/u.bin" (some "2-x") .normal 0) ≠
    build_target_path "/lib" (enqueue_download 12 none "manual" "m"
      "http://h/u.bin" (some "x") .normal 0) :=
  target_path_injective_in_id "/lib" _ _ (by decide)

/-- A freshly enqueued job used to exhibit the progress/status violation. -/
def c1_job : Download :=
  enqueue_download 1 none "manual" "manual" "http://h/f.bin" none .normal 0

/-- The observable state after enqueue, claim, completion, and a subsequent
router `cancel` of the already-completed job. -/
def c1_final : SysState :=
  ⟨cancel_download (mark_completed 5 1000 (some 1000)
    (claim_row 2 "/lib" c1_job)), .done⟩

/-- Claim C1 fails as stated: the state reached by completing a job and then
calling `cancel` on it is an observable point with `progress = 100` and
status `cancelled`, so `progress = 100` does not imply status `completed`. -/
theorem progress_100_not_completed_cx :
    Reachable ⟨c1_job, .idle⟩ c1_final ∧
    c1_final.row.progress = 100 ∧
    c1_final.row.status = .cancelled ∧
    c1_final.row.status ≠ .completed := by
  refine ⟨?_, rfl, rfl, by decide⟩
  have s1 : Step ⟨c1_job, .idle⟩ ⟨claim_row 2 "/lib" c1_job, .running⟩ :=
    Step.claim ⟨c1_job, .idle⟩ 2 "/lib" rfl rfl
  have s2 : Step ⟨claim_row 2 "/lib" c1_job, .running⟩
      ⟨mark_completed 5 1000 (some 1000) (claim_row 2 "/lib" c1_job),
        .done⟩ :=
    Step.complete ⟨claim_row 2 "/lib" c1_job, .running⟩ 5 1000 (some 1000)
      rfl
  have s3 : Step ⟨mark_completed 5 1000 (some 1000)
      (claim_row 2 "/lib" c1_job), .done⟩ c1_final :=
    Step.cancel ⟨mark_completed 5 1000 (some 1000)
      (claim_row 2 "/lib" c1_job), .done⟩
  exact Relation.ReflTransGen.head s1
    (Relation.ReflTransGen.head s2 (Relation.ReflTransGen.single s3))

/-- Claim C1, amended: in every reachable state, progress stays in
`[0, 100]` and a completed job has `progress = 100`; conversely
`progress = 100` implies the status is `completed` or `cancelled` — the
`cancelled` case arising exactly when the router cancels an
already-completed job, which keeps its progress at 100. -/
theorem progress_invariant_amended (id : Nat) (document_id : Option Nat)
    (source source_id url : String) (file_name : Option String)
    (priority : DownloadPriority) (now : Nat) (s : SysState)
    (h : Reachable (init_state id document_id source source_id url file_name
      priority now) s) :
    0 ≤ s.row.progress ∧ s.row.progress ≤ 100 ∧
    (s.row.status = .completed → s.row.progress = 100) ∧
    (s.row.progress = 100 →
      s.row.status = .completed ∨ s.row.status = .cancelled) := by
  have hinv := inv_reachable
    (inv_init id document_id source source_id url file_name priority now) h
  exact ⟨hinv.1, hinv.2.1, hinv.2.2.1, hinv.2.2.2.1⟩

/-- Concrete instantiation of `progress_invariant_amended` at a freshly
enqueued job, reachable by the empty trace. -/
theorem progress_invariant_amended_witness :
    0 ≤ (init_state 1 none "manual" "manual" "http://h/f.bin" none .normal
      0).row.progress ∧
    (init_state 1 none "manual" "manual" "http://h/f.bin" none .normal
      0).row.progress ≤ 100 ∧
    ((init_state 1 none "manual" "manual" "http://h/f.bin" none .normal
      0).row.status = .completed →
      (init_state 1 none "manual" "manual" "http://h/f.bin" none .normal
        0).row.progress = 100) ∧
    ((init_state 1 none "manual" "manual" "http://h/f.bin" none .normal
      0).row.progress = 100 →
      (init_state 1 none "manual" "manual" "http://h/f.bin" none .normal
        0).row.status = .completed ∨
      (init_state 1 none "manual" "manual" "http://h/f.bin" none .normal
        0).row.status = .cancelled) :=
  progress_invariant_amended 1 none "manual" "manual" "http://h/f.bin" none
    .normal 0 _ Relation.ReflTransGen.refl

/-- A job that has failed with a stored error message. -/
def c7_row : Download :=
  mark_failed 3 "boom" (claim_row 1 "/lib"
    (enqueue_download 2 none "manual" "manual" "http://h/g.bin" none
      .normal 0))

/-- Claim C7 fails as stated: `cancel` — which is neither a retry nor a new
dispatch — clears the stored error message of a failed job. -/
theorem cancel_clears_error_message_cx :
    c7_row.status = .failed ∧
    c7_row.error_message = some "boom" ∧
    (cancel_download c7_row).status = .cancelled ∧
    (cancel_download c7_row).error_message = none :=
  ⟨rfl, rfl, rfl, rfl⟩

/-- Claim C7, amended: `cancel` sets `status = cancelled` unconditionally for
any existing job and also clears `error_message`; apart from retry, a new
dispatch, completion, failure (which overwrites it) and cancel, no operation
touches `error_message` — in particular progress writes and the worker's
cancellation exit preserve it. -/
theorem cancel_semantics_amended (d : Download) (db : Nat)
    (tb sp : Option Nat) (p : Int) (t : Nat) :
    (cancel_download d).status = .cancelled ∧
    (cancel_download d).error_message = none ∧
    (update_progress db tb sp p d).error_message = d.error_message ∧
    (mark_cancelled t d).error_message = d.error_message :=
  ⟨rfl, rfl, rfl, rfl⟩

/-- Claim C8: one scheduler iteration computes
`capacity = max(max_parallel - |active|, 0)`, `_spawn_pending` adds at most
`capacity` workers, and hence the active set never grows beyond
`max_parallel`. -/
theorem scheduler_capacity_bound (max_parallel : Nat) (done : Finset Nat)
    (pending : List Download) (active : Finset Nat)
    (h : active.card ≤ max_parallel) :
    (run_loop_iter max_parallel done pending active).card ≤ max_parallel ∧
    ∀ (a : Finset Nat) (c : Nat) (p : List Download),
      (spawn_pending a c p).length ≤ c := by
  refine ⟨?_, fun a c p => spawn_pending_length_le a c p⟩
  show (if max_parallel - (active \ done).card > 0 then
      (active \ done) ∪ ((spawn_pending (active \ done)
        (max_parallel - (active \ done).card) pending).map
          (fun d => d.id)).toFinset
    else active \ done).card ≤ max_parallel
  have hcard : (active \ done).card ≤ active.card :=
    Finset.card_le_card Finset.sdiff_subset
  by_cases hcap : max_parallel - (active \ done).card > 0
  · rw [if_pos hcap]
    have hX : (((spawn_pending (active \ done)
        (max_parallel - (active \ done).card) pending).map
          (fun d => d.id)).toFinset).card ≤
        max_parallel - (active \ done).card := by
      refine le_trans (List.toFinset_card_le _) ?_
      rw [List.length_map]
      exact spawn_pending_length_le _ _ _
    have hu := Finset.card_union_le (active \ done)
      (((spawn_pending (active \ done)
        (max_parallel - (active \ done).card) pending).map
          (fun d => d.id)).toFinset)
    omega
  · rw [if_neg hcap]
    exact le_trans hcard h

/-- Concrete instantiation of `scheduler_capacity_bound`: with
`max_parallel = 2`, a full active set, one reaped worker and three pending
jobs, the next iteration's active set still has at most 2 entries. -/
theorem scheduler_capacity_bound_witness :
    (run_loop_iter 2 {1}
      [enqueue_download 3 none "m" "m" "http://h/a" none .normal 3,
       enqueue_download 4 none "m" "m" "http://h/b" none .high 4,
       enqueue_download 5 none "m" "m" "http://h/c" none .low 5]
      {1, 2}).card ≤ 2 :=
  (scheduler_capacity_bound 2 {1} _ {1, 2} (by decide)).1

/-- Two same-priority jobs created at times 10 and 20, and a high-priority
job, used to evaluate the dispatch order. -/
def c2_jobA : Download :=
  enqueue_download 1 none "manual" "manual" "http://h/a.bin" none .normal 10

/-- Companion to `c2_jobA`, same priority, created later. -/
def c2_jobB : Download :=
  enqueue_download 2 none "manual" "manual" "http://h/b.bin" none .normal 20

/-- A high-priority job created after both normal-priority jobs. -/
def c2_jobH : Download :=
  enqueue_download 3 none "manual" "manual" "http://h/c.bin" none .high 30

/-- Claim C2, evaluated at the failing input: with two pending jobs of equal
priority created at times 10 and 20 and capacity 1, `_spawn_pending` picks
the job created at time 20 — `reverse=True` reverses the `created_at`
tie-break too, so dispatch within a priority band is newest-first, not FIFO.
The priority ordering itself is as specified: a later-created high-priority
job is picked over a normal one. -/
theorem spawn_order_newest_first_within_band :
    c2_jobA.priority = c2_jobB.priority ∧
    c2_jobA.created_at = some 10 ∧
    c2_jobB.created_at = some 20 ∧
    spawn_pending ∅ 1 [c2_jobA, c2_jobB] = [c2_jobB] ∧
    spawn_pending ∅ 1 [c2_jobA, c2_jobH] = [c2_jobH] := by
  refine ⟨rfl, rfl, rfl, ?_, ?_⟩ <;> decide

end ClineIAI
